import Mathlib

/-!
Shallow embedding of the ICE agent core of `aioice` (`src/aioice/ice.py`):
candidate-pair priority arithmetic, check-list sorting, credential
validation, remote-candidate admission, check-list progression, and
role-conflict handling, together with theorems settling the stated
properties of these operations.

Python integers are unbounded, so machine arithmetic is modelled with
`Nat`.  Python's stable `list.sort` is modelled with `List.insertionSort`,
which is also stable; for a total preorder the stable sorted permutation
is unique, so the two agree extensionally.
-/

/-- Candidate record (`aioice.candidate.Candidate`): one transport address.
Only the fields read by `ice.py` are carried. -/
structure Candidate where
  foundation : String
  component : Nat
  transport : String
  priority : Nat
  host : String
  port : Nat
  type : String
deriving DecidableEq

/-- `candidate_pair_priority` (ice.py lines 70-78).  The source computes
`G = ice_controlling and local.priority or remote.priority` and
`D = ice_controlling and remote.priority or local.priority`; Python's
`b and x or y` idiom yields `y` whenever `x == 0`, so with the controlling
role the selection falls back to the other side's priority when the
preferred one is `0`.  The embedding reproduces that truthiness exactly. -/
def candidate_pair_priority (lc rc : Candidate) (ice_controlling : Bool) : Nat :=
  let G := if ice_controlling then
    (if lc.priority ≠ 0 then lc.priority else rc.priority) else rc.priority
  let D := if ice_controlling then
    (if rc.priority ≠ 0 then rc.priority else lc.priority) else lc.priority
  (1 <<< 32) * min G D + 2 * max G D + (if G > D then 1 else 0)

/-- Follows the spec's words (spec.md §3 "Check list"), for comparison with
`candidate_pair_priority`: `priority = 2^32 · min(G,D) + 2·max(G,D) + [G>D]`,
with `G` the controlling agent's candidate priority and `D` the controlled
agent's, chosen from local/remote according to the local role. -/
def spec_pair_priority (lc rc : Candidate) (ice_controlling : Bool) : Nat :=
  let G := if ice_controlling then lc.priority else rc.priority
  let D := if ice_controlling then rc.priority else lc.priority
  2 ^ 32 * min G D + 2 * max G D + (if G > D then 1 else 0)

/-- Pair states (`CandidatePair.State`, ice.py lines 238-243). -/
inductive PairState where
  | FROZEN
  | WAITING
  | IN_PROGRESS
  | SUCCEEDED
  | FAILED
deriving DecidableEq

/-- The slice of `StunProtocol` the check-list logic reads: its identity
(`protocol_id` counter gives each protocol a fresh id) and its
`local_candidate`.  Transport and transaction machinery are external. -/
structure StunProtocol where
  id : Nat
  local_candidate : Candidate
deriving DecidableEq

/-- `CandidatePair` (ice.py lines 210-243).  `task` records whether an
in-flight check task exists (`self.task is not None`). -/
structure CandidatePair where
  protocol : StunProtocol
  remote_candidate : Candidate
  state : PairState
  nominated : Bool
  remote_nominated : Bool
  task : Bool
deriving DecidableEq

/-- `CandidatePair.__init__`: fresh pairs are `FROZEN` with clear flags. -/
def CandidatePair.mk0 (protocol : StunProtocol) (remote_candidate : Candidate) :
    CandidatePair :=
  { protocol := protocol, remote_candidate := remote_candidate,
    state := PairState.FROZEN, nominated := false, remote_nominated := false,
    task := false }

/-- `CandidatePair.local_candidate` is read through the pair's protocol. -/
def CandidatePair.local_candidate (pair : CandidatePair) : Candidate :=
  pair.protocol.local_candidate

/-- `CandidatePair.component` is the local candidate's component. -/
def CandidatePair.component (pair : CandidatePair) : Nat :=
  pair.local_candidate.component

/-- The sort key used by `sort_candidate_pairs` (ice.py lines 172-175):
the negated pair priority, so that an ascending sort orders pairs by
decreasing priority. -/
def pair_sort_key (ice_controlling : Bool) (pair : CandidatePair) : Int :=
  -(candidate_pair_priority pair.local_candidate pair.remote_candidate
      ice_controlling : Int)

/-- `sort_candidate_pairs` (ice.py lines 167-177): stable sort of the pair
list by ascending `pair_sort_key`.  Python's `list.sort` is a stable sort;
`List.insertionSort` is the stable sort on the same total preorder. -/
def sort_candidate_pairs (pairs : List CandidatePair) (ice_controlling : Bool) :
    List CandidatePair :=
  pairs.insertionSort
    (fun a b => pair_sort_key ice_controlling a ≤ pair_sort_key ice_controlling b)

/-- The ice-char alphabet `[a-z0-9+/]` of the validation regexes
(ice.py lines 186 and 206). -/
def ice_char (c : Char) : Bool :=
  ('a' ≤ c && c ≤ 'z') || ('0' ≤ c && c ≤ '9') || c = '+' || c = '/'

/-- Semantics of Python's `re.match("^[a-z0-9+/]{lo,hi}$", value)` being
truthy.  `re.match` anchors at the start; `$` matches at the end of the
string or just before a single newline at the end of the string, so the
pattern accepts either the whole string, or the whole string minus one
trailing `'\n'`, as `lo..hi` ice-chars. -/
def ice_regex_match (lo hi : Nat) (s : List Char) : Bool :=
  (s.all ice_char && lo ≤ s.length && s.length ≤ hi) ||
    (match s.getLast? with
      | some c =>
        c = '\n' && s.dropLast.all ice_char &&
          lo ≤ s.dropLast.length && s.dropLast.length ≤ hi
      | none => false)

/-- `validate_password` (ice.py lines 180-187): `true` iff the value
matches `^[a-z0-9+/]{22,256}$` (no `ValueError` raised). -/
def validate_password (value : String) : Bool :=
  ice_regex_match 22 256 value.data

/-- `validate_username` (ice.py lines 200-207): `true` iff the value
matches `^[a-z0-9+/]{4,256}$` (no `ValueError` raised). -/
def validate_username (value : String) : Bool :=
  ice_regex_match 4 256 value.data

/-- Modelled from the spec: `ipaddress.ip_address` (Python stdlib, outside
src/) succeeds on IP literals; the spec's candidates carry "IP literal"
hosts (spec.md §3).  A coarse executable stand-in: an IPv6 literal contains
`':'`, an IPv4 literal is digits and dots.  No claim in this development
depends on the precise parse. -/
def is_ip_literal (host : String) : Bool :=
  (host.data.contains ':' &&
      host.data.all (fun c => c.isDigit || ('a' ≤ c && c ≤ 'f') || c = ':')) ||
    (host.data ≠ [] && host.data.all (fun c => c.isDigit || c = '.'))

/-- `validate_remote_candidate` (ice.py lines 190-197): raises `ValueError`
(modelled as `Except.error`) unless the candidate type is one of
`host`, `relay`, `srflx` and the host parses as an IP address. -/
def validate_remote_candidate (candidate : Candidate) :
    Except String Candidate :=
  if ¬ (candidate.type = "host" ∨ candidate.type = "relay" ∨
      candidate.type = "srflx") then
    Except.error "Unexpected candidate type"
  else if ¬ is_ip_literal candidate.host then
    Except.error "invalid IP address"
  else
    Except.ok candidate

/-- Modelled from the spec: `mdns.is_mdns_hostname` from the `mdns` module
(not under src/); the spec calls mDNS hostnames `*.local` (spec.md §4.1). -/
def is_mdns_hostname (host : String) : Bool :=
  (".local").data.isSuffixOf host.data

/-- Modelled from the spec: `Candidate.can_pair_with` from the `candidate`
module (not under src/): same component, same transport, same IP address
family (spec.md §4.1). -/
def can_pair_with (a b : Candidate) : Bool :=
  a.component == b.component && a.transport == b.transport &&
    a.host.data.contains ':' == b.host.data.contains ':'

/-- Connection events (`ConnectionEvent` hierarchy, ice.py lines 336-341).
Only `ConnectionClosed` exists in the source. -/
inductive ConnEvent where
  | ConnectionClosed
deriving DecidableEq

/-- The slice of a STUN `Message` the agent reads (attributes used by
ice.py): method/class routing is done by the endpoint, so only binding
requests reach `request_received`; `method_binding` records whether
`message_method == stun.Method.BINDING`. -/
structure StunMessage where
  method_binding : Bool
  username : Option String
  ice_controlling_attr : Option Nat
  ice_controlled_attr : Option Nat
  use_candidate : Bool
  priority_attr : Option Nat
deriving DecidableEq

/-- Check-list result codes (ice.py lines 23-24). -/
def ICE_COMPLETED : Nat := 1

/-- Check-list result code for failure (ice.py line 24). -/
def ICE_FAILED : Nat := 2

/-- The `Connection` state touched by the embedded operations
(`Connection.__init__`, ice.py lines 368-451).  `check_list_state` models
the `asyncio.Queue` of result codes as the list of codes put so far;
`event_waiter` models whether a `get_event` future is pending. -/
structure Conn where
  ice_controlling : Bool
  tie_breaker : Nat
  local_username : String
  local_password : String
  remote_username : Option String
  components : List Nat
  check_list : List CandidatePair
  check_list_done : Bool
  check_list_state : List Nat
  nominated : List (Nat × CandidatePair)
  nominating : List Nat
  protocols : List StunProtocol
  local_candidates : List Candidate
  remote_candidates : List Candidate
  remote_candidates_end : Bool
  early_checks : List (StunMessage × (String × Nat) × StunProtocol)
  early_checks_done : Bool
  closed : Bool
  event_waiter : Bool
deriving DecidableEq

/-- Dictionary update `self._nominated[component] = pair`: replace the
entry for the key if present, otherwise append it. -/
def insertNom (m : List (Nat × CandidatePair)) (k : Nat) (v : CandidatePair) :
    List (Nat × CandidatePair) :=
  match m with
  | [] => [(k, v)]
  | (k', v') :: rest =>
    if k' = k then (k, v) :: rest else (k', v') :: insertNom rest k v

/-- Dictionary lookup in the `nominated` map. -/
def lookupNom (m : List (Nat × CandidatePair)) (k : Nat) :
    Option CandidatePair :=
  match m with
  | [] => none
  | (k', v') :: rest => if k' = k then some v' else lookupNom rest k

/-- `Connection._find_pair` (ice.py lines 966-975): first check-list pair
with this protocol and remote candidate, if any. -/
def find_pair (check_list : List CandidatePair) (protocol : StunProtocol)
    (remote_candidate : Candidate) : Option CandidatePair :=
  check_list.find? (fun pair =>
    pair.protocol == protocol && pair.remote_candidate == remote_candidate)

/-- `Connection.sort_check_list` (ice.py lines 1172-1173). -/
def sort_check_list (conn : Conn) : Conn :=
  { conn with
    check_list := sort_candidate_pairs conn.check_list conn.ice_controlling }

/-- `Connection.switch_role` (ice.py lines 1175-1180): set the role and
re-sort the check list. -/
def switch_role (conn : Conn) (ice_controlling : Bool) : Conn :=
  sort_check_list { conn with ice_controlling := ice_controlling }

/-- `Connection._emit_event` (ice.py lines 960-964): resolve the pending
`get_event` future if one exists, otherwise drop the event.  Returns the
new state and the list of events actually delivered. -/
def emit_event (conn : Conn) (event : ConnEvent) : Conn × List ConnEvent :=
  if conn.event_waiter then ({ conn with event_waiter := false }, [event])
  else (conn, [])

/-- `Connection._prune_components` (ice.py lines 1060-1072): after
end-of-candidates, keep only the components seen in a remote candidate. -/
def prune_components (conn : Conn) : Conn :=
  let seen := (conn.remote_candidates.map (fun c => c.component)).dedup
  let missing := conn.components.filter (fun c => ¬ seen.contains c)
  if missing ≠ [] then { conn with components := seen } else conn

/-- The validated non-mDNS path of `Connection.add_remote_candidate`
(ice.py lines 517-534): a candidate failing `validate_remote_candidate` is
logged and silently dropped (the `ValueError` is caught); a valid one is
appended to `remote_candidates` and paired against every protocol whose
local candidate can pair with it and which has no pair yet, then the check
list is re-sorted. -/
def add_remote_candidate_core (conn : Conn) (remote_candidate : Candidate) :
    Conn :=
  match validate_remote_candidate remote_candidate with
  | Except.error _ => conn
  | Except.ok _ =>
    let conn := { conn with
      remote_candidates := conn.remote_candidates ++ [remote_candidate] }
    let cl := conn.protocols.foldl (fun cl protocol =>
      if can_pair_with protocol.local_candidate remote_candidate &&
          (find_pair cl protocol remote_candidate).isNone then
        cl ++ [CandidatePair.mk0 protocol remote_candidate]
      else cl) conn.check_list
    sort_check_list { conn with check_list := cl }

/-- `Connection.add_remote_candidate` (ice.py lines 482-534).  `none`
signals end-of-candidates.  `mdns_resolve` stands for the external mDNS
resolver; resolved addresses are IP literals, so the recursive call on the
resolved copy takes the non-mDNS path. -/
def add_remote_candidate (conn : Conn) (remote_candidate : Option Candidate)
    (mdns_resolve : String → Option String) : Except String Conn :=
  if conn.remote_candidates_end then
    Except.error "Cannot add remote candidate after end-of-candidates."
  else
    match remote_candidate with
    | none =>
      Except.ok { prune_components conn with remote_candidates_end := true }
    | some rc =>
      if is_mdns_hostname rc.host then
        match mdns_resolve rc.host with
        | none => Except.ok conn
        | some addr =>
          if is_mdns_hostname addr then Except.ok conn
          else Except.ok (add_remote_candidate_core conn { rc with host := addr })
      else Except.ok (add_remote_candidate_core conn rc)

/-- Pair formation in `Connection.connect` (ice.py lines 579-587,
RFC 5245 §5.7.1): form any pair still missing from the product of remote
candidates and pairable protocols, then re-sort the check list. -/
def connect_form_pairs (conn : Conn) : Conn :=
  let cl := conn.remote_candidates.foldl (fun cl rc =>
    conn.protocols.foldl (fun cl protocol =>
      if can_pair_with protocol.local_candidate rc &&
          (find_pair cl protocol rc).isNone then
        cl ++ [CandidatePair.mk0 protocol rc]
      else cl) cl) conn.check_list
  sort_check_list { conn with check_list := cl }

/-- `Connection.get_default_candidate` (ice.py lines 555-564): sort the
local candidates by ascending priority (`sorted` is stable and copies the
list) and return the first one of the requested component. -/
def get_default_candidate (conn : Conn) (component : Nat) :
    Option Candidate :=
  (conn.local_candidates.insertionSort (fun a b => a.priority ≤ b.priority)).find?
    (fun c => c.component == component)

/-- First phase of `Connection._unfreeze_initial` (ice.py lines 1183-1192):
locate the first check-list pair of the given component; if its state is
`FROZEN`, set it to `WAITING` in place.  Returns the updated list together
with the (updated) first pair, or `none` when no pair has the component. -/
def unfreeze_first (comp : Nat) :
    List CandidatePair → Option (List CandidatePair × CandidatePair)
  | [] => none
  | p :: rest =>
    if p.component == comp then
      if p.state == PairState.FROZEN then
        some ({ p with state := PairState.WAITING } :: rest,
          { p with state := PairState.WAITING })
      else some (p :: rest, p)
    else
      match unfreeze_first comp rest with
      | none => none
      | some (rest', fp) => some (p :: rest', fp)

/-- Second phase of `Connection._unfreeze_initial` (ice.py lines 1194-1203):
walk the check list; every `FROZEN` pair of the component whose local
foundation is not in the `seen` set becomes `WAITING` and its foundation is
added to the set. -/
def unfreeze_loop (comp : Nat) :
    List String → List CandidatePair → List CandidatePair
  | _, [] => []
  | seen, p :: rest =>
    if p.component == comp && ¬ seen.contains p.local_candidate.foundation &&
        p.state == PairState.FROZEN then
      { p with state := PairState.WAITING } ::
        unfreeze_loop comp (p.local_candidate.foundation :: seen) rest
    else
      p :: unfreeze_loop comp seen rest

/-- `Connection._unfreeze_initial` (ice.py lines 1182-1203).  The `seen`
set starts as `set(first_pair.local_candidate.foundation)`, which in Python
is the set of the foundation string's CHARACTERS (each a one-character
string), not the singleton of the foundation. -/
def unfreeze_initial (conn : Conn) : Conn :=
  match conn.components.min? with
  | none => conn
  | some m =>
    match unfreeze_first m conn.check_list with
    | none => conn
    | some (cl, fp) =>
      let seen := fp.local_candidate.foundation.data.map
        (fun c => String.mk [c])
      { conn with check_list := unfreeze_loop fp.component seen cl }

/-- Update, in place, every check-list entry for the given
`(protocol, remote_candidate)` key (Python mutates the single pair object
found by `_find_pair`; keys are unique in well-formed check lists). -/
def update_pair (cl : List CandidatePair) (protocol : StunProtocol)
    (rc : Candidate) (f : CandidatePair → CandidatePair) :
    List CandidatePair :=
  cl.map (fun p =>
    if p.protocol == protocol && p.remote_candidate == rc then f p else p)

/-- The terminal sweep of `Connection.check_complete` (ice.py lines
800-815): if every pair is `SUCCEEDED` or `FAILED`, and (controlling, or
no pair is `SUCCEEDED` for controlled), signal `ICE_FAILED` unless the
check list is already done. -/
def check_list_sweep (conn : Conn) : Conn :=
  if conn.check_list.all (fun p =>
      p.state == PairState.SUCCEEDED || p.state == PairState.FAILED) then
    if !conn.ice_controlling &&
        conn.check_list.any (fun p => p.state == PairState.SUCCEEDED) then
      conn
    else if ¬ conn.check_list_done then
      { conn with
        check_list_state := conn.check_list_state ++ [ICE_FAILED]
        check_list_done := true }
    else conn
  else conn

/-- `Connection.check_complete` (ice.py lines 763-815).  The argument is
the pair object the completed check ran on; its `task` is cleared first
(`pair.task = None`), which also clears it on the pair's check-list entry
since they are the same object. -/
def check_complete (conn : Conn) (pair0 : CandidatePair) : Conn :=
  let pair : CandidatePair := { pair0 with task := false }
  let conn : Conn := { conn with
    check_list := conn.check_list.map (fun p => if p == pair0 then pair else p) }
  if pair.state == PairState.SUCCEEDED then
    let conn : Conn :=
      if pair.nominated then
        { conn with
          nominated := insertNom conn.nominated pair.component pair
          check_list := conn.check_list.map (fun p =>
            if p.component == pair.component &&
                (p.state == PairState.WAITING ||
                  p.state == PairState.FROZEN) then
              { p with state := PairState.FAILED }
            else p) }
      else conn
    if conn.nominated.length == conn.components.length then
      if ¬ conn.check_list_done then
        { conn with
          check_list_state := conn.check_list_state ++ [ICE_COMPLETED]
          check_list_done := true }
      else conn
    else
      check_list_sweep { conn with
        check_list := conn.check_list.map (fun p =>
          if p.local_candidate.foundation == pair.local_candidate.foundation &&
              p.state == PairState.FROZEN then
            { p with state := PairState.WAITING }
          else p) }
  else check_list_sweep conn

/-- Tail of `Connection.check_incoming` (ice.py lines 846-864), from the
point where the remote candidate is known: find or create the pair (new
pairs start `WAITING`, are appended and the list re-sorted), run the
triggered check (`check_start_task` creates a task unless one exists), and
update the nominated flag per RFC 5245 §7.2.1.5. -/
def check_incoming_with (conn : Conn) (message : StunMessage)
    (protocol : StunProtocol) (rc : Candidate) : Conn :=
  let found := find_pair conn.check_list protocol rc
  let pair := match found with
    | some pair => pair
    | none => { CandidatePair.mk0 protocol rc with state := PairState.WAITING }
  let conn := match found with
    | some _ => conn
    | none =>
      sort_check_list { conn with check_list := conn.check_list ++ [pair] }
  let pair :=
    if pair.state == PairState.WAITING || pair.state == PairState.FAILED then
      { pair with task := true }
    else pair
  let conn :=
    if pair.state == PairState.WAITING || pair.state == PairState.FAILED then
      { conn with check_list :=
        update_pair conn.check_list protocol rc (fun p => { p with task := true }) }
    else conn
  if message.use_candidate && !conn.ice_controlling then
    let pair := { pair with remote_nominated := true }
    let cl := update_pair conn.check_list protocol rc
      (fun p => { p with remote_nominated := true })
    let conn := { conn with check_list := cl }
    if pair.state == PairState.SUCCEEDED then
      let pair := { pair with nominated := true }
      let cl := update_pair conn.check_list protocol rc
        (fun p => { p with nominated := true })
      check_complete { conn with check_list := cl } pair
    else conn
  else conn

/-- `Connection.check_incoming` (ice.py lines 817-864).  `fresh_foundation`
stands for `random_string(10)`, the externally drawn foundation of a newly
learned peer-reflexive candidate.  If the request lacks a `PRIORITY`
attribute while the sender is unknown, the Python dict access raises before
any state change; the embedding returns the state unchanged. -/
def check_incoming (conn : Conn) (message : StunMessage)
    (addr : String × Nat) (protocol : StunProtocol)
    (fresh_foundation : String) : Conn :=
  let component := protocol.local_candidate.component
  match conn.remote_candidates.find?
      (fun c => c.host == addr.1 && c.port == addr.2) with
  | some rc => check_incoming_with conn message protocol rc
  | none =>
    match message.priority_attr with
    | none => conn
    | some pri =>
      let rc : Candidate :=
        { foundation := fresh_foundation, component := component,
          transport := "udp", priority := pri, host := addr.1,
          port := addr.2, type := "prflx" }
      check_incoming_with
        { conn with remote_candidates := conn.remote_candidates ++ [rc] }
        message protocol rc

/-- `Connection.check_periodic` (ice.py lines 866-883).  The second result
is the check-list pair handed to `check_start_task` (which creates a check
task for it unless one is already running), `none` when no check is
scheduled.  The loops take the first `WAITING` (resp. `FROZEN`) pair in
list order. -/
def check_periodic (conn : Conn) : Bool × Option CandidatePair :=
  match conn.check_list.find? (fun p => p.state == PairState.WAITING) with
  | some pair => (true, some pair)
  | none =>
    match conn.check_list.find? (fun p => p.state == PairState.FROZEN) with
    | some pair => (true, some pair)
    | none =>
      if ¬ conn.remote_candidates_end then (!conn.check_list_done, none)
      else (false, none)

/-- The reply an inbound request produces (ice.py lines 1103-1154): a 400
or 487 error response, or a binding response (`responded`). -/
inductive RxAction where
  | error400
  | error487
  | responded
deriving DecidableEq

/-- `Connection.request_received` (ice.py lines 1103-1154).  `integrity_ok`
stands for `stun.parse_message(raw_data, integrity_key=...)` succeeding
(STUN collaborator, external); `fresh_foundation` is threaded to
`check_incoming`.  Non-binding methods and authentication failures get a
400; a role conflict decided against the peer gets a 487 with no state
change; otherwise a binding response is sent, after any role switch, and
the check is buffered or dispatched to `check_incoming`. -/
def request_received (conn : Conn) (message : StunMessage)
    (addr : String × Nat) (protocol : StunProtocol) (integrity_ok : Bool)
    (fresh_foundation : String) : RxAction × Conn :=
  if ¬ message.method_binding then (RxAction.error400, conn)
  else if ¬ integrity_ok then (RxAction.error400, conn)
  else
    let username_ok := match conn.remote_username with
      | none => true
      | some ru =>
        message.username == some (conn.local_username ++ ":" ++ ru)
    if username_ok = false then (RxAction.error400, conn)
    else
      let conflict : Option (RxAction × Conn) :=
        if conn.ice_controlling then
          match message.ice_controlling_attr with
          | some peer_tb =>
            if conn.tie_breaker ≥ peer_tb then some (RxAction.error487, conn)
            else some (RxAction.responded, switch_role conn false)
          | none => none
        else
          match message.ice_controlled_attr with
          | some peer_tb =>
            if conn.tie_breaker < peer_tb then some (RxAction.error487, conn)
            else some (RxAction.responded, switch_role conn true)
          | none => none
      let step : RxAction × Conn :=
        match conflict with
        | some r => r
        | none => (RxAction.responded, conn)
      match step with
      | (RxAction.error487, conn) => (RxAction.error487, conn)
      | (_, conn) =>
        if conn.check_list.isEmpty && ¬ conn.early_checks_done then
          (RxAction.responded, { conn with
            early_checks := conn.early_checks ++ [(message, addr, protocol)] })
        else
          (RxAction.responded,
            check_incoming conn message addr protocol fresh_foundation)

/-- `Connection.close` (ice.py lines 620-648).  Consent-task cancellation,
the mDNS unref and the endpoint closes are external effects; the state
effects are: push `ICE_FAILED` if the check list is non-empty and not done,
clear the nominated map, the protocol list and the local candidates, and on
the first close emit `ConnectionClosed` (delivered only to a pending
`get_event` waiter) and set the closed flag. -/
def close (conn : Conn) : Conn × List ConnEvent :=
  let new_state :=
    if ¬ conn.check_list.isEmpty && ¬ conn.check_list_done then
      conn.check_list_state ++ [ICE_FAILED]
    else conn.check_list_state
  let conn2 := { conn with
    check_list_state := new_state
    nominated := []
    protocols := []
    local_candidates := [] }
  if ¬ conn2.closed then
    ({ (emit_event conn2 ConnEvent.ConnectionClosed).1 with closed := true },
      (emit_event conn2 ConnEvent.ConnectionClosed).2)
  else (conn2, [])

/-- A sequence of `n` successive `close` calls, collecting every event
delivered along the way. -/
def close_iter (conn : Conn) : Nat → Conn × List ConnEvent
  | 0 => (conn, [])
  | n + 1 =>
    ((close_iter (close conn).1 n).1,
      (close conn).2 ++ (close_iter (close conn).1 n).2)

/-- A sample host candidate with a given priority, for concrete checks. -/
def sampleCand (pri : Nat) : Candidate :=
  { foundation := "abcd1234", component := 1, transport := "udp",
    priority := pri, host := "10.0.0.1", port := 40000, type := "host" }

/-- A baseline connection state for concrete checks. -/
def conn0 : Conn :=
  { ice_controlling := true, tie_breaker := 77, local_username := "user"
    local_password := "passpasspasspasspasspa"
    remote_username := some "peer", components := [1], check_list := []
    check_list_done := false, check_list_state := [], nominated := []
    nominating := [], protocols := [], local_candidates := []
    remote_candidates := [], remote_candidates_end := false
    early_checks := [], early_checks_done := false, closed := false
    event_waiter := true }

/-- C2, counterexample: with a candidate priority of 0 the tie-break
symmetry fails — `candidate_pair_priority(local, remote, true)` differs
from `candidate_pair_priority(remote, local, false)`, because Python's
`and/or` selection falls back to the other side's priority when the
controlling side's priority is 0. -/
theorem C2_pair_priority_symmetry_counterexample :
    candidate_pair_priority (sampleCand 0) (sampleCand 5) true ≠
      candidate_pair_priority (sampleCand 5) (sampleCand 0) false := by
  decide

/-- C2 (amended): for candidates whose priorities are both nonzero (as
RFC 5245 requires of candidate priorities), computing the pair priority
with the local agent controlling equals computing it with the arguments
swapped and the local agent controlled. -/
theorem C2_pair_priority_symmetry (lc rc : Candidate)
    (hl : lc.priority ≠ 0) (hr : rc.priority ≠ 0) :
    candidate_pair_priority lc rc true =
      candidate_pair_priority rc lc false := by
  unfold candidate_pair_priority
  simp [hl, hr]

/-- C2, witness for the amended theorem at priorities 7 and 3. -/
theorem C2_pair_priority_symmetry_witness :
    (sampleCand 7).priority ≠ 0 ∧ (sampleCand 3).priority ≠ 0 ∧
      candidate_pair_priority (sampleCand 7) (sampleCand 3) true =
        candidate_pair_priority (sampleCand 3) (sampleCand 7) false :=
  ⟨by decide, by decide,
    C2_pair_priority_symmetry (sampleCand 7) (sampleCand 3)
      (by decide) (by decide)⟩

/-- A remote candidate with an unsupported type, for concrete checks. -/
def bogusCand : Candidate :=
  { foundation := "f1", component := 1, transport := "udp", priority := 123,
    host := "1.2.3.4", port := 5000, type := "bogus" }

/-- C7, counterexample: adding a remote candidate of unsupported type
returns successfully with the state unchanged — the `ValueError` from
`validate_remote_candidate` is caught inside `add_remote_candidate`
(ice.py lines 517-524) and never surfaces to the caller. -/
theorem C7_invalid_type_counterexample :
    add_remote_candidate conn0 (some bogusCand) (fun _ => none) =
      Except.ok conn0 := by
  rfl

/-- C7 (amended): a non-mDNS remote candidate whose type is not one of
`host`, `srflx`, `relay` is silently dropped: `add_remote_candidate`
returns successfully with the connection state unchanged, so in particular
the candidate is not appended to `remote_candidates` and no pair is added
to the check list; no error reaches the caller. -/
theorem C7_invalid_type_dropped (conn : Conn) (rc : Candidate)
    (resolve : String → Option String)
    (hend : conn.remote_candidates_end = false)
    (hmdns : is_mdns_hostname rc.host = false)
    (htype : rc.type ≠ "host" ∧ rc.type ≠ "relay" ∧ rc.type ≠ "srflx") :
    add_remote_candidate conn (some rc) resolve = Except.ok conn := by
  unfold add_remote_candidate add_remote_candidate_core
    validate_remote_candidate
  simp [hend, hmdns, htype.1, htype.2.1, htype.2.2]

/-- C7, witness for the amended theorem at a concrete bogus candidate. -/
theorem C7_invalid_type_dropped_witness :
    conn0.remote_candidates_end = false ∧
      is_mdns_hostname bogusCand.host = false ∧
      (bogusCand.type ≠ "host" ∧ bogusCand.type ≠ "relay" ∧
        bogusCand.type ≠ "srflx") ∧
      add_remote_candidate conn0 (some bogusCand) (fun _ => none) =
        Except.ok conn0 :=
  ⟨by decide, by decide, by decide,
    C7_invalid_type_dropped conn0 bogusCand (fun _ => none) (by decide)
      (by decide) (by decide)⟩

/-- A list of ice-chars matches the credential regex iff its length is in
range: the trailing-newline branch cannot fire since `'\n'` is not an
ice-char. -/
theorem ice_regex_match_of_all (lo hi : Nat) (s : List Char)
    (hs : s.all ice_char = true) :
    ice_regex_match lo hi s = true ↔ lo ≤ s.length ∧ s.length ≤ hi := by
  unfold ice_regex_match
  cases h : s.getLast? with
  | none => simp [hs]
  | some c =>
    have hmem : c ∈ s := by
      obtain ⟨ys, rfl⟩ := List.getLast?_eq_some_iff.mp h
      exact List.mem_append_right ys (List.mem_singleton_self c)
    have hc : ice_char c = true := List.all_eq_true.mp hs c hmem
    have hne : ¬ (c = '\n') := by
      intro e
      rw [e] at hc
      exact absurd hc (by decide)
    simp [hs, hne]

/-- Any string accepted by the credential regex is all ice-chars, or all
ice-chars followed by exactly one trailing newline. -/
theorem ice_regex_match_accepts (lo hi : Nat) (s : List Char)
    (h : ice_regex_match lo hi s = true) :
    s.all ice_char = true ∨
      (s.getLast? = some '\n' ∧ s.dropLast.all ice_char = true) := by
  unfold ice_regex_match at h
  rw [Bool.or_eq_true] at h
  rcases h with h1 | h2
  · rw [Bool.and_eq_true, Bool.and_eq_true] at h1
    exact Or.inl h1.1.1
  · cases hg : s.getLast? with
    | none => rw [hg] at h2; simp at h2
    | some c =>
      rw [hg] at h2
      simp only [Bool.and_eq_true, decide_eq_true_eq] at h2
      obtain ⟨⟨⟨hc, hall⟩, -⟩, -⟩ := h2
      exact Or.inr ⟨by rw [hc], hall⟩

/-- C8, counterexample: `"abcd\n"` contains `'\n'`, which is outside the
ice-char alphabet, yet `validate_username` accepts it — Python's `$`
matches just before a single trailing newline, so the claim's "strings
containing a character outside the alphabet are rejected at any length"
fails. -/
theorem C8_trailing_newline_counterexample :
    validate_username "abcd\n" = true ∧ ice_char '\n' = false := by
  constructor
  · rfl
  · decide

/-- C8 (amended): for strings over the ice-char alphabet, a username is
accepted exactly for lengths 4..256 (so 4 and 256 accepted, 3 and 257
rejected) and a password exactly for lengths 22..256 (so 22 and 256
accepted, 21 and 257 rejected); an accepted string is over the alphabet
except possibly for one trailing newline, which is accepted because
Python's `$` matches before a final newline. -/
theorem C8_credential_boundaries :
    (∀ s : String, s.data.all ice_char = true →
      ((validate_username s = true ↔ 4 ≤ s.length ∧ s.length ≤ 256) ∧
        (validate_password s = true ↔ 22 ≤ s.length ∧ s.length ≤ 256))) ∧
    (∀ s : String, validate_username s = true ∨ validate_password s = true →
      s.data.all ice_char = true ∨
        (s.data.getLast? = some '\n' ∧ s.data.dropLast.all ice_char = true)) := by
  constructor
  · intro s hs
    constructor
    · exact ice_regex_match_of_all 4 256 s.data hs
    · exact ice_regex_match_of_all 22 256 s.data hs
  · intro s hs
    rcases hs with h | h
    · exact ice_regex_match_accepts 4 256 s.data h
    · exact ice_regex_match_accepts 22 256 s.data h

set_option maxRecDepth 8000 in
/-- C8, witness: the boundary facts at concrete strings — length 4 and 256
usernames accepted, length 3 and 257 rejected; length 22 and 256 passwords
accepted, length 21 and 257 rejected; and the accepted-shape conclusion at
a concrete accepted string. -/
theorem C8_credential_boundaries_witness :
    validate_username (String.mk (List.replicate 4 'a')) = true ∧
      validate_username (String.mk (List.replicate 256 'a')) = true ∧
      validate_username (String.mk (List.replicate 3 'a')) = false ∧
      validate_username (String.mk (List.replicate 257 'a')) = false ∧
      validate_password (String.mk (List.replicate 22 'a')) = true ∧
      validate_password (String.mk (List.replicate 256 'a')) = true ∧
      validate_password (String.mk (List.replicate 21 'a')) = false ∧
      validate_password (String.mk (List.replicate 257 'a')) = false ∧
      (String.mk (List.replicate 4 'a')).data.all ice_char = true := by
  refine ⟨?_, ?_, ?_, ?_, ?_, ?_, ?_, ?_, by decide⟩
  · exact (C8_credential_boundaries.1 _ (by decide)).1.mpr (by decide)
  · exact (C8_credential_boundaries.1 _ (by decide)).1.mpr (by decide)
  · exact Bool.eq_false_iff.mpr (fun h =>
      absurd ((C8_credential_boundaries.1 _ (by decide)).1.mp h) (by decide))
  · exact Bool.eq_false_iff.mpr (fun h =>
      absurd ((C8_credential_boundaries.1 _ (by decide)).1.mp h) (by decide))
  · exact (C8_credential_boundaries.1 _ (by decide)).2.mpr (by decide)
  · exact (C8_credential_boundaries.1 _ (by decide)).2.mpr (by decide)
  · exact Bool.eq_false_iff.mpr (fun h =>
      absurd ((C8_credential_boundaries.1 _ (by decide)).2.mp h) (by decide))
  · exact Bool.eq_false_iff.mpr (fun h =>
      absurd ((C8_credential_boundaries.1 _ (by decide)).2.mp h) (by decide))

/-- After any `close`, the closed flag is set. -/
theorem close_closed (conn : Conn) : (close conn).1.closed = true := by
  by_cases h1 : conn.closed <;> by_cases h2 : conn.event_waiter <;>
    simp [close, emit_event, h1, h2]

/-- A close on an already-closed connection delivers no events. -/
theorem close_events_of_closed (conn : Conn) (h : conn.closed = true) :
    (close conn).2 = [] := by
  simp [close, emit_event, h]

/-- Once closed, no later close in a sequence delivers any event. -/
theorem close_iter_events_of_closed (conn : Conn) (h : conn.closed = true) :
    ∀ n, (close_iter conn n).2 = [] := by
  intro n
  induction n generalizing conn with
  | zero => rfl
  | succ n ih =>
    unfold close_iter
    rw [close_events_of_closed conn h]
    simpa using ih (close conn).1 (close_closed conn)

/-- C9: calling `close` a second time is a no-op on the nominated map, the
protocol list and the local candidates — they are already empty after the
first close and stay empty — the second close delivers no event, and over
any sequence of `close` calls at most one `ConnectionClosed` is emitted. -/
theorem C9_close_idempotent (conn : Conn) (n : Nat) :
    (close conn).1.nominated = [] ∧ (close conn).1.protocols = [] ∧
      (close conn).1.local_candidates = [] ∧
      (close (close conn).1).1.nominated = [] ∧
      (close (close conn).1).1.protocols = [] ∧
      (close (close conn).1).1.local_candidates = [] ∧
      (close (close conn).1).2 = [] ∧
      (close_iter conn n).2.count ConnEvent.ConnectionClosed ≤ 1 := by
  have hempty : ∀ c : Conn, (close c).1.nominated = [] ∧
      (close c).1.protocols = [] ∧ (close c).1.local_candidates = [] := by
    intro c
    by_cases h1 : c.closed <;> by_cases h2 : c.event_waiter <;>
      simp [close, emit_event, h1, h2]
  refine ⟨(hempty conn).1, (hempty conn).2.1, (hempty conn).2.2,
    (hempty _).1, (hempty _).2.1, (hempty _).2.2,
    close_events_of_closed _ (close_closed conn), ?_⟩
  cases n with
  | zero => simp [close_iter]
  | succ n =>
    unfold close_iter
    rw [close_iter_events_of_closed (close conn).1 (close_closed conn) n]
    have h2 : (close conn).2.count ConnEvent.ConnectionClosed ≤ 1 := by
      by_cases ha : conn.closed <;> by_cases hb : conn.event_waiter <;>
        simp [close, emit_event, ha, hb]
    simpa using h2

/-- A local endpoint whose candidate has the two-character foundation
`"ab"`. -/
def protoA : StunProtocol :=
  { id := 1
    local_candidate :=
      { foundation := "ab", component := 1, transport := "udp"
        priority := 100, host := "10.0.0.1", port := 1111, type := "host" } }

/-- A second local endpoint whose candidate has the same foundation
`"ab"`. -/
def protoB : StunProtocol :=
  { id := 2
    local_candidate :=
      { foundation := "ab", component := 1, transport := "udp"
        priority := 90, host := "10.0.0.2", port := 2222, type := "host" } }

/-- A remote host candidate both endpoints pair with. -/
def remoteHost : Candidate :=
  { foundation := "rf", component := 1, transport := "udp"
    priority := 80, host := "10.0.0.9", port := 3333, type := "host" }

/-- A connection whose check list holds two `FROZEN` pairs of component 1
with the same local foundation `"ab"`. -/
def unfreezeConn : Conn :=
  { conn0 with check_list :=
      [CandidatePair.mk0 protoA remoteHost,
        CandidatePair.mk0 protoB remoteHost] }

/-- C1: on a check list with two `FROZEN` component-1 pairs whose local
candidates share the two-character foundation `"ab"`, `_unfreeze_initial`
moves BOTH pairs to `WAITING`.  The claim (like the code's own comment,
"unfreeze pairs with same component but different foundations") requires
the second pair to stay `FROZEN`; the code initialises the seen set as
`set("ab") = {"a", "b"}` — the set of the foundation's characters — so the
full foundation string `"ab"` is never "seen" and the second pair is
unfrozen too. -/
theorem C1_same_foundation_also_unfrozen :
    ((unfreeze_initial unfreezeConn).check_list.map (fun p => p.state)) =
      [PairState.WAITING, PairState.WAITING] := by
  decide

/-- The terminal sweep never changes the role. -/
theorem check_list_sweep_role (conn : Conn) :
    (check_list_sweep conn).ice_controlling = conn.ice_controlling := by
  unfold check_list_sweep
  split_ifs <;> rfl

/-- `check_complete` never changes the role. -/
theorem check_complete_role (conn : Conn) (pair : CandidatePair) :
    (check_complete conn pair).ice_controlling = conn.ice_controlling := by
  simp only [check_complete]
  split_ifs <;> simp [check_list_sweep_role]

/-- `check_incoming_with` never changes the role. -/
theorem check_incoming_with_role (conn : Conn) (message : StunMessage)
    (protocol : StunProtocol) (rc : Candidate) :
    (check_incoming_with conn message protocol rc).ice_controlling =
      conn.ice_controlling := by
  simp only [check_incoming_with]
  cases find_pair conn.check_list protocol rc <;>
    split_ifs <;> simp [check_complete_role, sort_check_list]

/-- `check_incoming` never changes the role. -/
theorem check_incoming_role (conn : Conn) (message : StunMessage)
    (addr : String × Nat) (protocol : StunProtocol) (fresh : String) :
    (check_incoming conn message addr protocol fresh).ice_controlling =
      conn.ice_controlling := by
  unfold check_incoming
  cases conn.remote_candidates.find?
      (fun c => c.host == addr.1 && c.port == addr.2) with
  | some rc => exact check_incoming_with_role ..
  | none =>
    cases message.priority_attr with
    | none => rfl
    | some pri => exact check_incoming_with_role ..

/-- `switch_role` sets exactly the requested role. -/
theorem switch_role_role (conn : Conn) (b : Bool) :
    (switch_role conn b).ice_controlling = b := rfl

/-- C5: incoming role-conflict resolution for authenticated binding
requests (ice.py lines 1127-1139).  If the local role is controlling and
the request carries `ICE-CONTROLLING`: when the local tie-breaker is ≥ the
peer's, reply 487 with the state unchanged (no role switch, no binding
response); otherwise switch to controlled and send a binding response.
Symmetrically, if controlled and the request carries `ICE-CONTROLLED`:
when the local tie-breaker is < the peer's, reply 487 with the state
unchanged; otherwise switch to controlling and send a binding response. -/
theorem C5_role_conflict (conn : Conn) (message : StunMessage)
    (addr : String × Nat) (protocol : StunProtocol) (fresh : String)
    (peer_tb : Nat)
    (hb : message.method_binding = true)
    (huser : ∀ ru, conn.remote_username = some ru →
      message.username = some (conn.local_username ++ ":" ++ ru)) :
    (conn.ice_controlling = true →
      message.ice_controlling_attr = some peer_tb →
      (peer_tb ≤ conn.tie_breaker →
        request_received conn message addr protocol true fresh =
          (RxAction.error487, conn)) ∧
      (conn.tie_breaker < peer_tb →
        (request_received conn message addr protocol true fresh).1 =
          RxAction.responded ∧
        (request_received conn message addr protocol true
            fresh).2.ice_controlling = false)) ∧
    (conn.ice_controlling = false →
      message.ice_controlled_attr = some peer_tb →
      (conn.tie_breaker < peer_tb →
        request_received conn message addr protocol true fresh =
          (RxAction.error487, conn)) ∧
      (peer_tb ≤ conn.tie_breaker →
        (request_received conn message addr protocol true fresh).1 =
          RxAction.responded ∧
        (request_received conn message addr protocol true
            fresh).2.ice_controlling = true)) := by
  have huser_ok : (match conn.remote_username with
      | none => true
      | some ru =>
        message.username == some (conn.local_username ++ ":" ++ ru)) =
        true := by
    cases h : conn.remote_username with
    | none => rfl
    | some ru => simp [huser ru h]
  constructor
  · intro hrole hattr
    constructor
    · intro hge
      simp [request_received, hb, huser_ok, hrole, hattr, hge]
    · intro hlt
      have hnge : ¬ (conn.tie_breaker ≥ peer_tb) := Nat.not_le.mpr hlt
      by_cases hbuf :
          (switch_role conn false).check_list = [] ∧
            (switch_role conn false).early_checks_done = false
      · simp [request_received, hb, huser_ok, hrole, hattr, hnge, hbuf,
          switch_role_role]
      · simp [request_received, hb, huser_ok, hrole, hattr, hnge, hbuf,
          check_incoming_role, switch_role_role]
  · intro hrole hattr
    constructor
    · intro hlt
      simp [request_received, hb, huser_ok, hrole, hattr, hlt]
    · intro hge
      have hnlt : ¬ (conn.tie_breaker < peer_tb) := Nat.not_lt.mpr hge
      by_cases hbuf :
          (switch_role conn true).check_list = [] ∧
            (switch_role conn true).early_checks_done = false
      · simp [request_received, hb, huser_ok, hrole, hattr, hnlt, hbuf,
          switch_role_role]
      · simp [request_received, hb, huser_ok, hrole, hattr, hnlt, hbuf,
          check_incoming_role, switch_role_role]

/-- The pair priority of a check-list entry under a role. -/
def pair_priority (b : Bool) (p : CandidatePair) : Nat :=
  candidate_pair_priority p.local_candidate p.remote_candidate b

/-- A check list is in descending pair-priority order for role `b`:
every earlier entry has priority ≥ every later entry, in particular any
two consecutive entries. -/
def priority_descending (b : Bool) (l : List CandidatePair) : Prop :=
  List.Pairwise (fun x y => pair_priority b y ≤ pair_priority b x) l

instance (b : Bool) (l : List CandidatePair) :
    Decidable (priority_descending b l) := by
  unfold priority_descending
  infer_instance

/-- The output of `sort_candidate_pairs` is in descending pair-priority
order (with respect to the priority function as implemented). -/
theorem sort_candidate_pairs_sorted (pairs : List CandidatePair) (b : Bool) :
    priority_descending b (sort_candidate_pairs pairs b) := by
  have hs : List.Sorted
      (fun x y => pair_sort_key b x ≤ pair_sort_key b y)
      (sort_candidate_pairs pairs b) := by
    haveI : IsTotal CandidatePair
        (fun x y => pair_sort_key b x ≤ pair_sort_key b y) :=
      ⟨fun x y => le_total _ _⟩
    haveI : IsTrans CandidatePair
        (fun x y => pair_sort_key b x ≤ pair_sort_key b y) :=
      ⟨fun x y z => le_trans⟩
    exact List.sorted_insertionSort _ pairs
  refine hs.imp ?_
  intro x y hxy
  unfold pair_sort_key at hxy
  unfold pair_priority
  omega

/-- Mapping a function over a check list preserves descending order when
the function changes neither the protocol nor the remote candidate of any
entry (it may change states and flags, on which priority does not
depend). -/
theorem priority_descending_map (b : Bool) (l : List CandidatePair)
    (f : CandidatePair → CandidatePair)
    (hf : ∀ p, (f p).protocol = p.protocol ∧
      (f p).remote_candidate = p.remote_candidate)
    (h : priority_descending b l) : priority_descending b (l.map f) := by
  have hpri : ∀ p, pair_priority b (f p) = pair_priority b p := by
    intro p
    unfold pair_priority CandidatePair.local_candidate
    rw [(hf p).1, (hf p).2]
  exact List.Pairwise.map f (fun a c hac => by
    rw [hpri a, hpri c]; exact hac) h

/-- `update_pair` preserves descending order when the update changes
neither protocol nor remote candidate. -/
theorem priority_descending_update_pair (b : Bool) (l : List CandidatePair)
    (protocol : StunProtocol) (rc : Candidate)
    (f : CandidatePair → CandidatePair)
    (hf : ∀ p, (f p).protocol = p.protocol ∧
      (f p).remote_candidate = p.remote_candidate)
    (h : priority_descending b l) :
    priority_descending b (update_pair l protocol rc f) := by
  unfold update_pair
  refine priority_descending_map b l _ ?_ h
  intro p
  split
  · exact hf p
  · exact ⟨rfl, rfl⟩

/-- `check_complete` only rewrites entry states and flags, so it preserves
descending order of the check list. -/
theorem priority_descending_check_complete (b : Bool) (conn : Conn)
    (pair : CandidatePair)
    (h : priority_descending b conn.check_list) :
    priority_descending b (check_complete conn pair).check_list := by
  have hsweep : ∀ c : Conn, (check_list_sweep c).check_list = c.check_list := by
    intro c
    unfold check_list_sweep
    split_ifs <;> rfl
  simp only [check_complete]
  split_ifs <;> simp only [hsweep] <;>
    (repeat'
      first
        | exact h
        | refine priority_descending_map b _ _
            (by
              intro p
              split
              · first
                | exact ⟨rfl, rfl⟩
                | (next hpq => rw [eq_of_beq hpq]; exact ⟨rfl, rfl⟩)
              · exact ⟨rfl, rfl⟩) ?_)

/-- An incoming check leaves the check list in descending order: a newly
inserted pair triggers a re-sort, and the later flag updates and
`check_complete` do not touch any pair's candidates. -/
theorem priority_descending_check_incoming_with (b : Bool) (conn : Conn)
    (message : StunMessage) (protocol : StunProtocol) (rc : Candidate)
    (hb : conn.ice_controlling = b)
    (h : priority_descending b conn.check_list) :
    priority_descending b
      (check_incoming_with conn message protocol rc).check_list := by
  simp only [check_incoming_with, sort_check_list]
  cases hf : find_pair conn.check_list protocol rc <;>
    rw [hb] <;>
    split_ifs <;>
    (repeat'
      first
        | exact h
        | exact sort_candidate_pairs_sorted _ b
        | apply priority_descending_check_complete
        | refine priority_descending_update_pair b _ _ _ _
            (by intro p; exact ⟨rfl, rfl⟩) ?_)

/-- `check_incoming` preserves descending order of the check list. -/
theorem priority_descending_check_incoming (b : Bool) (conn : Conn)
    (message : StunMessage) (addr : String × Nat) (protocol : StunProtocol)
    (fresh : String) (hb : conn.ice_controlling = b)
    (h : priority_descending b conn.check_list) :
    priority_descending b
      (check_incoming conn message addr protocol fresh).check_list := by
  simp only [check_incoming]
  cases conn.remote_candidates.find?
      (fun c => c.host == addr.1 && c.port == addr.2) with
  | some rc => exact priority_descending_check_incoming_with b conn _ _ _ hb h
  | none =>
    cases message.priority_attr with
    | none => exact h
    | some pri =>
      exact priority_descending_check_incoming_with b _ _ _ _ hb h

/-- A successful `add_remote_candidate` call either leaves the check list
unchanged (end-of-candidates, unresolved mDNS, invalid candidate) or ends
with a re-sort, leaving it in descending order under the current role. -/
theorem priority_descending_add_remote (conn : Conn) (rc : Candidate)
    (resolve : String → Option String) (conn' : Conn)
    (hok : add_remote_candidate conn (some rc) resolve = Except.ok conn') :
    conn'.check_list = conn.check_list ∨
      priority_descending conn'.ice_controlling conn'.check_list := by
  have hcore : ∀ c : Candidate,
      add_remote_candidate_core conn c = conn ∨
        ((add_remote_candidate_core conn c).ice_controlling =
            conn.ice_controlling ∧
          priority_descending (add_remote_candidate_core conn c).ice_controlling
            (add_remote_candidate_core conn c).check_list) := by
    intro c
    unfold add_remote_candidate_core
    cases validate_remote_candidate c with
    | error e => exact Or.inl rfl
    | ok _ =>
      refine Or.inr ⟨rfl, ?_⟩
      exact sort_candidate_pairs_sorted _ _
  unfold add_remote_candidate at hok
  by_cases h1 : conn.remote_candidates_end = true
  · rw [if_pos h1] at hok
    cases hok
  · rw [if_neg h1] at hok
    simp only [] at hok
    by_cases h2 : is_mdns_hostname rc.host = true
    · rw [if_pos h2] at hok
      cases hres : resolve rc.host with
      | none =>
        rw [hres] at hok
        cases hok
        exact Or.inl rfl
      | some addr =>
        rw [hres] at hok
        simp only [] at hok
        by_cases h3 : is_mdns_hostname addr = true
        · rw [if_pos h3] at hok
          cases hok
          exact Or.inl rfl
        · rw [if_neg h3] at hok
          cases hok
          rcases hcore _ with he | ⟨_, hd⟩
          · rw [he]
            exact Or.inl rfl
          · exact Or.inr hd
    · rw [if_neg h2] at hok
      cases hok
      rcases hcore rc with he | ⟨_, hd⟩
      · rw [he]
        exact Or.inl rfl
      · exact Or.inr hd

/-- Pair formation at `connect` ends with a re-sort. -/
theorem priority_descending_connect_form_pairs (conn : Conn) :
    priority_descending (connect_form_pairs conn).ice_controlling
      (connect_form_pairs conn).check_list := by
  unfold connect_form_pairs sort_check_list
  exact sort_candidate_pairs_sorted _ _

/-- A local endpoint with candidate priority 1, for the sorting
counterexample. -/
def protoOne : StunProtocol :=
  { id := 3
    local_candidate :=
      { foundation := "cc", component := 1, transport := "udp"
        priority := 1, host := "10.0.0.5", port := 5001, type := "host" } }

/-- A local endpoint with candidate priority 0, for the sorting
counterexample. -/
def protoZero : StunProtocol :=
  { id := 4
    local_candidate :=
      { foundation := "dd", component := 1, transport := "udp"
        priority := 0, host := "10.0.0.6", port := 5002, type := "host" } }

/-- A connection holding one pair with priorities (1, 1) and one with a
zero local priority paired to remote priority 5. -/
def c3conn : Conn :=
  { conn0 with check_list :=
      [CandidatePair.mk0 protoOne (sampleCand 1),
        CandidatePair.mk0 protoZero (sampleCand 5)] }

/-- C3, counterexample: after `switch_role` (one of the claim's listed
operations) the sorted check list starts with the zero-local-priority pair
— the implemented sort key reads its priority as `5·2^32 + 10` through the
`and/or` fallback — but under the claim's formula, with `G` the
controlling side's candidate priority, its priority is `10`, strictly
below the `2^32 + 2` of the pair placed after it.  Consecutive pairs thus
violate the claimed `priority(i) ≥ priority(i+1)`. -/
theorem C3_ordering_counterexample :
    ((switch_role c3conn true).check_list.map (fun p =>
        spec_pair_priority p.local_candidate p.remote_candidate true)) =
      [10, 2 ^ 32 + 2] ∧ (10 : Nat) < 2 ^ 32 + 2 := by
  constructor
  · decide
  · decide

/-- C3 (amended): after every operation that adds pairs or switches the
role — `add_remote_candidate`, `connect` pair formation, `check_incoming`,
`switch_role`, and the underlying `sort_candidate_pairs` /
`sort_check_list` — the check list is in descending order of
`candidate_pair_priority` as implemented (which agrees with the claimed
formula `2^32·min(G,D) + 2·max(G,D) + [G>D]`, `G` the controlling side's
priority, whenever no candidate priority is 0); in particular any two
consecutive pairs `i`, `i+1` satisfy `priority(i) ≥ priority(i+1)`.
`add_remote_candidate` paths that add no pair leave the list unchanged;
`check_incoming` preserves the order it is given. -/
theorem C3_check_list_ordering :
    (∀ (pairs : List CandidatePair) (b : Bool),
      priority_descending b (sort_candidate_pairs pairs b)) ∧
    (∀ conn : Conn, priority_descending conn.ice_controlling
      (sort_check_list conn).check_list) ∧
    (∀ (conn : Conn) (b : Bool),
      priority_descending (switch_role conn b).ice_controlling
        (switch_role conn b).check_list) ∧
    (∀ (conn : Conn) (rc : Candidate) (resolve : String → Option String)
        (conn' : Conn),
      add_remote_candidate conn (some rc) resolve = Except.ok conn' →
      conn'.check_list = conn.check_list ∨
        priority_descending conn'.ice_controlling conn'.check_list) ∧
    (∀ conn : Conn,
      priority_descending (connect_form_pairs conn).ice_controlling
        (connect_form_pairs conn).check_list) ∧
    (∀ (conn : Conn) (message : StunMessage) (addr : String × Nat)
        (protocol : StunProtocol) (fresh : String),
      priority_descending conn.ice_controlling conn.check_list →
      priority_descending conn.ice_controlling
        (check_incoming conn message addr protocol fresh).check_list) ∧
    (∀ (b : Bool) (l : List CandidatePair), priority_descending b l →
      ∀ (i : Nat) (hi : i < l.length) (hj : i + 1 < l.length),
        pair_priority b (l.get ⟨i + 1, hj⟩) ≤
          pair_priority b (l.get ⟨i, hi⟩)) := by
  refine ⟨sort_candidate_pairs_sorted, ?_, ?_, ?_, ?_, ?_, ?_⟩
  · intro conn
    exact sort_candidate_pairs_sorted _ _
  · intro conn b
    exact sort_candidate_pairs_sorted _ _
  · intro conn rc resolve conn' hok
    exact priority_descending_add_remote conn rc resolve conn' hok
  · exact priority_descending_connect_form_pairs
  · intro conn message addr protocol fresh h
    exact priority_descending_check_incoming conn.ice_controlling conn
      message addr protocol fresh rfl h
  · intro b l h i hi hj
    have := List.pairwise_iff_getElem.mp h i (i + 1) hi hj (by omega)
    simpa [List.get_eq_getElem] using this

/-- A binding request carrying a `PRIORITY` attribute, used to exercise
peer-reflexive discovery in concrete checks. -/
def msgPrflx : StunMessage :=
  { method_binding := true, username := some "user:peer"
    ice_controlling_attr := none, ice_controlled_attr := none
    use_candidate := false, priority_attr := some 1234 }

/-- A valid remote host candidate, for concrete checks. -/
def goodCand : Candidate :=
  { foundation := "gf", component := 1, transport := "udp"
    priority := 2130706431, host := "10.0.0.7", port := 6000
    type := "host" }

/-- C3, witness: the check-incoming and add-remote-candidate conjuncts of
the amended ordering theorem, applied at concrete inputs. -/
theorem C3_check_list_ordering_witness :
    priority_descending conn0.ice_controlling conn0.check_list ∧
      priority_descending conn0.ice_controlling
        (check_incoming conn0 msgPrflx ("9.9.9.9", 1234) protoA
          "ff").check_list ∧
      ((add_remote_candidate_core conn0 goodCand).check_list =
          conn0.check_list ∨
        priority_descending
          (add_remote_candidate_core conn0 goodCand).ice_controlling
          (add_remote_candidate_core conn0 goodCand).check_list) :=
  ⟨by decide,
    C3_check_list_ordering.2.2.2.2.2.1 conn0 msgPrflx ("9.9.9.9", 1234)
      protoA "ff" (by decide),
    C3_check_list_ordering.2.2.2.1 conn0 goodCand (fun _ => none)
      (add_remote_candidate_core conn0 goodCand) (by rfl)⟩

/-- An authenticated binding request carrying `ICE-CONTROLLING` with
tie-breaker 50. -/
def msg487 : StunMessage :=
  { method_binding := true, username := some "user:peer"
    ice_controlling_attr := some 50, ice_controlled_attr := none
    use_candidate := false, priority_attr := none }

/-- C5, witness: `conn0` is controlling with tie-breaker 77 ≥ 50, so the
request yields a 487 with no state change. -/
theorem C5_role_conflict_witness :
    request_received conn0 msg487 ("10.0.0.9", 3333) protoA true "ff" =
      (RxAction.error487, conn0) :=
  ((C5_role_conflict conn0 msg487 ("10.0.0.9", 3333) protoA "ff" 50
      (by decide)
      (fun ru h => by
        have h2 : some "peer" = some ru := h
        obtain rfl : "peer" = ru := Option.some.inj h2
        decide)).1 (by decide) (by decide)).1 (by decide)

/-- Splitting lemma for `find?`: the found element cuts the list into a
prefix where the predicate fails and a suffix it heads. -/
theorem find?_split {α : Type} {p : α → Bool} :
    ∀ {l : List α} {a : α}, l.find? p = some a →
      ∃ l1 l2, l = l1 ++ a :: l2 ∧ ∀ x ∈ l1, p x = false := by
  intro l
  induction l with
  | nil => intro a h; cases h
  | cons c rest ih =>
    intro a h
    cases hc : p c with
    | true =>
      rw [List.find?_cons_of_pos _ hc] at h
      cases h
      exact ⟨[], rest, rfl, by intro x hx; cases hx⟩
    | false =>
      rw [List.find?_cons_of_neg _ (by simp [hc])] at h
      obtain ⟨l1, l2, rfl, hl1⟩ := ih h
      refine ⟨c :: l1, l2, rfl, ?_⟩
      intro x hx
      rcases List.mem_cons.mp hx with rfl | hx
      · exact hc
      · exact hl1 x hx

/-- In a descending check list, the first pair found in a given state has
maximal priority among all pairs in that state. -/
theorem find?_state_max (b : Bool) (l : List CandidatePair)
    (st : PairState) (pair : CandidatePair)
    (hsorted : priority_descending b l)
    (hfind : l.find? (fun p => p.state == st) = some pair) :
    pair ∈ l ∧ pair.state = st ∧
      ∀ q ∈ l, q.state = st → pair_priority b q ≤ pair_priority b pair := by
  refine ⟨List.mem_of_find?_eq_some hfind, by
    simpa using List.find?_some hfind, ?_⟩
  obtain ⟨l1, l2, rfl, hl1⟩ := find?_split hfind
  intro q hq hqst
  rcases List.mem_append.mp hq with hq1 | hq2
  · exact absurd (by simpa using hl1 q hq1) (by simp [hqst])
  · rcases List.mem_cons.mp hq2 with rfl | hq3
    · exact le_refl _
    · have hpw := (List.pairwise_append.mp hsorted).2.1
      exact List.rel_of_pairwise_cons hpw hq3

/-- C6: for a check list in descending priority order (the invariant the
sort maintains), `check_periodic` returns `true` and schedules a check for
the highest-priority `WAITING` pair if one exists; otherwise returns
`true` and schedules the highest-priority `FROZEN` pair if one exists;
otherwise, if the remote has not signaled end-of-candidates, it returns
the negation of the checks-done flag and schedules nothing; otherwise it
returns `false` and schedules nothing. -/
theorem C6_check_periodic (conn : Conn)
    (hsorted : priority_descending conn.ice_controlling conn.check_list) :
    ((∃ q ∈ conn.check_list, q.state = PairState.WAITING) →
      (check_periodic conn).1 = true ∧
      ∃ pair, (check_periodic conn).2 = some pair ∧
        pair ∈ conn.check_list ∧ pair.state = PairState.WAITING ∧
        ∀ q ∈ conn.check_list, q.state = PairState.WAITING →
          pair_priority conn.ice_controlling q ≤
            pair_priority conn.ice_controlling pair) ∧
    ((¬ ∃ q ∈ conn.check_list, q.state = PairState.WAITING) →
      (∃ q ∈ conn.check_list, q.state = PairState.FROZEN) →
      (check_periodic conn).1 = true ∧
      ∃ pair, (check_periodic conn).2 = some pair ∧
        pair ∈ conn.check_list ∧ pair.state = PairState.FROZEN ∧
        ∀ q ∈ conn.check_list, q.state = PairState.FROZEN →
          pair_priority conn.ice_controlling q ≤
            pair_priority conn.ice_controlling pair) ∧
    ((¬ ∃ q ∈ conn.check_list, q.state = PairState.WAITING) →
      (¬ ∃ q ∈ conn.check_list, q.state = PairState.FROZEN) →
      conn.remote_candidates_end = false →
      check_periodic conn = (!conn.check_list_done, none)) ∧
    ((¬ ∃ q ∈ conn.check_list, q.state = PairState.WAITING) →
      (¬ ∃ q ∈ conn.check_list, q.state = PairState.FROZEN) →
      conn.remote_candidates_end = true →
      check_periodic conn = (false, none)) := by
  have hnone : ∀ st : PairState,
      (¬ ∃ q ∈ conn.check_list, q.state = st) →
      conn.check_list.find? (fun p => p.state == st) = none := by
    intro st hn
    rw [List.find?_eq_none]
    intro x hx hpx
    exact hn ⟨x, hx, by simpa using hpx⟩
  refine ⟨?_, ?_, ?_, ?_⟩
  · intro hex
    obtain ⟨pair, hfind⟩ : ∃ pair,
        conn.check_list.find? (fun p => p.state == PairState.WAITING) =
          some pair := by
      refine Option.isSome_iff_exists.mp ?_
      rw [List.find?_isSome]
      obtain ⟨q, hq, hqs⟩ := hex
      exact ⟨q, hq, by simp [hqs]⟩
    have hmax := find?_state_max conn.ice_controlling conn.check_list
      PairState.WAITING pair hsorted hfind
    unfold check_periodic
    rw [hfind]
    exact ⟨rfl, pair, rfl, hmax.1, hmax.2.1, hmax.2.2⟩
  · intro hnw hex
    obtain ⟨pair, hfind⟩ : ∃ pair,
        conn.check_list.find? (fun p => p.state == PairState.FROZEN) =
          some pair := by
      refine Option.isSome_iff_exists.mp ?_
      rw [List.find?_isSome]
      obtain ⟨q, hq, hqs⟩ := hex
      exact ⟨q, hq, by simp [hqs]⟩
    have hmax := find?_state_max conn.ice_controlling conn.check_list
      PairState.FROZEN pair hsorted hfind
    unfold check_periodic
    rw [hnone _ hnw, hfind]
    exact ⟨rfl, pair, rfl, hmax.1, hmax.2.1, hmax.2.2⟩
  · intro hnw hnf hend
    unfold check_periodic
    rw [hnone _ hnw, hnone _ hnf]
    simp [hend]
  · intro hnw hnf hend
    unfold check_periodic
    rw [hnone _ hnw, hnone _ hnf]
    simp [hend]

/-- A connection with a single `WAITING` pair, for the periodic-check
witness. -/
def c6conn : Conn :=
  { conn0 with check_list :=
      [{ CandidatePair.mk0 protoA remoteHost with
          state := PairState.WAITING }] }

/-- C6, witness: on a sorted one-pair check list with a `WAITING` pair,
`check_periodic` returns `true` and schedules that pair. -/
theorem C6_check_periodic_witness :
    priority_descending c6conn.ice_controlling c6conn.check_list ∧
      ((check_periodic c6conn).1 = true ∧
        ∃ pair, (check_periodic c6conn).2 = some pair ∧
          pair ∈ c6conn.check_list ∧ pair.state = PairState.WAITING ∧
          ∀ q ∈ c6conn.check_list, q.state = PairState.WAITING →
            pair_priority c6conn.ice_controlling q ≤
              pair_priority c6conn.ice_controlling pair) :=
  ⟨by decide, (C6_check_periodic c6conn (by decide)).1 (by decide)⟩

/-- Updating the nominated map at a key makes lookup at that key return
the new value. -/
theorem lookupNom_insertNom (m : List (Nat × CandidatePair)) (k : Nat)
    (v : CandidatePair) : lookupNom (insertNom m k v) k = some v := by
  induction m with
  | nil => simp [insertNom, lookupNom]
  | cons e rest ih =>
    obtain ⟨k', v'⟩ := e
    by_cases hk : k' = k
    · simp [insertNom, lookupNom, hk]
    · simp [insertNom, lookupNom, hk, ih]

/-- The terminal sweep does not change the nominated map or the check
list, and when the check list is already done it does not change the
result queue either. -/
theorem check_list_sweep_frame (c : Conn) :
    (check_list_sweep c).nominated = c.nominated ∧
      (check_list_sweep c).check_list = c.check_list ∧
      (c.check_list_done = true →
        (check_list_sweep c).check_list_state = c.check_list_state) := by
  unfold check_list_sweep
  split_ifs <;> simp_all

/-- C4: when `check_complete` runs on a `SUCCEEDED`, nominated pair, it
installs the pair (with its task cleared) as `nominated[component]` and
marks every check-list pair of the same component whose state is `WAITING`
or `FROZEN` as `FAILED`; if afterwards the nominated map covers every
configured component and the check list is not yet done, it signals
`ICE_COMPLETED` — appending it once to the result queue — and marks the
check list done; if the check list was already done, no further result
code is enqueued. -/
theorem C4_check_complete (conn : Conn) (pair : CandidatePair)
    (hst : pair.state = PairState.SUCCEEDED) (hnom : pair.nominated = true) :
    (lookupNom (check_complete conn pair).nominated pair.component =
      some { pair with task := false }) ∧
    (∀ (i : Nat) (hi : i < conn.check_list.length)
        (hj : i < (check_complete conn pair).check_list.length),
      (conn.check_list[i]).component = pair.component →
      ((conn.check_list[i]).state = PairState.WAITING ∨
        (conn.check_list[i]).state = PairState.FROZEN) →
      ((check_complete conn pair).check_list[i]).state =
        PairState.FAILED) ∧
    ((insertNom conn.nominated pair.component
        { pair with task := false }).length = conn.components.length →
      conn.check_list_done = false →
      (check_complete conn pair).check_list_state =
        conn.check_list_state ++ [ICE_COMPLETED] ∧
      (check_complete conn pair).check_list_done = true) ∧
    (conn.check_list_done = true →
      (check_complete conn pair).check_list_state =
        conn.check_list_state) := by
  have hTFcomp : ({ pair with task := false } : CandidatePair).component =
      pair.component := rfl
  have hc1 : (pair.state == PairState.SUCCEEDED) = true := by simp [hst]
  have hentry : ∀ (i : Nat) (hi : i < conn.check_list.length),
      (conn.check_list[i]).component = pair.component →
      ((conn.check_list[i]).state = PairState.WAITING ∨
        (conn.check_list[i]).state = PairState.FROZEN) →
      ((conn.check_list[i] == pair) = false ∧
        ((conn.check_list[i]).component ==
            ({ pair with task := false } : CandidatePair).component &&
          ((conn.check_list[i]).state == PairState.WAITING ||
            (conn.check_list[i]).state == PairState.FROZEN)) = true) := by
    intro i hi hcomp hwf
    constructor
    · rw [beq_eq_false_iff_ne]
      intro heq
      rcases hwf with h | h <;> rw [heq, hst] at h <;> cases h
    · rcases hwf with h | h <;> simp [hcomp, hTFcomp, h]
  simp only [check_complete, eq_true hc1, eq_true hnom, if_true]
  by_cases hlen : ((insertNom conn.nominated
      ({ pair with task := false } : CandidatePair).component
      ({ pair with task := false } : CandidatePair)).length ==
      conn.components.length) = true
  · simp only [eq_true hlen, if_true]
    by_cases hdone : conn.check_list_done = true
    · have hcond : (¬ conn.check_list_done = true) = False := by
        simp [hdone]
      simp only [hcond, if_false]
      refine ⟨lookupNom_insertNom _ _ _, ?_, ?_, ?_⟩
      · intro i hi hj hcomp hwf
        obtain ⟨hne, hc2⟩ := hentry i hi hcomp hwf
        have hne' : ((conn.check_list[i] == pair) = true) = False := by
          simp [hne]
        simp only [List.getElem_map, hne', if_false, eq_true hc2, if_true]
      · intro _ hdf
        rw [hdf] at hdone
        cases hdone
      · intro _
        trivial
    · have hcond : (¬ conn.check_list_done = true) = True := by
        simp [hdone]
      simp only [hcond, if_true]
      refine ⟨lookupNom_insertNom _ _ _, ?_, ?_, ?_⟩
      · intro i hi hj hcomp hwf
        obtain ⟨hne, hc2⟩ := hentry i hi hcomp hwf
        have hne' : ((conn.check_list[i] == pair) = true) = False := by
          simp [hne]
        simp only [List.getElem_map, hne', if_false, eq_true hc2, if_true]
      · intro _ _
        constructor <;> trivial
      · intro hdt
        exact absurd hdt hdone
  · simp only [eq_false hlen, if_false]
    refine ⟨?_, ?_, ?_, ?_⟩
    · rw [(check_list_sweep_frame _).1]
      exact lookupNom_insertNom _ _ _
    · intro i hi hj hcomp hwf
      obtain ⟨hne, hc2⟩ := hentry i hi hcomp hwf
      have hne' : ((conn.check_list[i] == pair) = true) = False := by
        simp [hne]
      rw [List.getElem_of_eq (check_list_sweep_frame _).2.1]
      simp only [List.getElem_map, hne', if_false, eq_true hc2, if_true]
      simp
    · intro hlene _
      exact absurd (beq_iff_eq.mpr hlene) hlen
    · intro hdt
      exact (check_list_sweep_frame _).2.2 hdt

/-- A succeeded, nominated pair for the `check_complete` witness. -/
def succPair : CandidatePair :=
  { CandidatePair.mk0 protoA remoteHost with
    state := PairState.SUCCEEDED, nominated := true }

/-- A connection with the succeeded pair and one `WAITING` pair of the
same component, one configured component, nothing nominated yet. -/
def c4conn : Conn :=
  { conn0 with check_list :=
      [succPair, { CandidatePair.mk0 protoB remoteHost with
        state := PairState.WAITING }] }

/-- C4, witness: on `c4conn` the succeeded nominated pair is installed,
`ICE_COMPLETED` is enqueued once and the check list is marked done. -/
theorem C4_check_complete_witness :
    succPair.state = PairState.SUCCEEDED ∧ succPair.nominated = true ∧
      lookupNom (check_complete c4conn succPair).nominated
        succPair.component = some { succPair with task := false } ∧
      (check_complete c4conn succPair).check_list_state =
        c4conn.check_list_state ++ [ICE_COMPLETED] ∧
      (check_complete c4conn succPair).check_list_done = true :=
  ⟨by decide, by decide,
    (C4_check_complete c4conn succPair (by decide) (by decide)).1,
    ((C4_check_complete c4conn succPair (by decide) (by decide)).2.2.1
      (by decide) (by decide)).1,
    ((C4_check_complete c4conn succPair (by decide) (by decide)).2.2.1
      (by decide) (by decide)).2⟩

/-- Follows the claim's words for C10, for comparison with
`get_default_candidate`: the candidate with the minimum priority value
among the local candidates of the component, ties broken in favour of the
earliest candidate in gathering order; `none` when the component has no
candidate. -/
def default_candidate_spec : List Candidate → Nat → Option Candidate
  | [], _ => none
  | c :: rest, comp =>
    match default_candidate_spec rest comp with
    | none => if c.component == comp then some c else none
    | some b =>
      if (c.component == comp) = true ∧ c.priority ≤ b.priority then some c
      else some b

/-- Inserting `a` into a priority-sorted list commutes with searching for
the first candidate of a component: the result is `a` exactly when `a`
matches and its priority is at most that of the first match (stability:
on priority ties the inserted element goes first). -/
theorem find?_orderedInsert (comp : Nat) (a : Candidate) :
    ∀ s : List Candidate,
      List.Sorted (fun x y : Candidate => x.priority ≤ y.priority) s →
      (s.orderedInsert (fun x y => x.priority ≤ y.priority) a).find?
          (fun c => c.component == comp) =
        (match s.find? (fun c => c.component == comp) with
          | none => if a.component == comp then some a else none
          | some b =>
            if (a.component == comp) = true ∧ a.priority ≤ b.priority then
              some a
            else some b)
  | [], _ => by
    rw [List.orderedInsert_nil]
    cases ha : (a.component == comp) with
    | true =>
      rw [@List.find?_cons_of_pos Candidate
        (fun c => c.component == comp) a [] ha]
      simp [List.find?]
    | false =>
      rw [@List.find?_cons_of_neg Candidate
        (fun c => c.component == comp) a [] (by simp [ha])]
      simp [List.find?]
  | c :: s, hs => by
    by_cases hac : a.priority ≤ c.priority
    · rw [List.orderedInsert, if_pos hac]
      cases hpa : (a.component == comp) with
      | true =>
        rw [@List.find?_cons_of_pos Candidate
          (fun c => c.component == comp) a (c :: s) hpa]
        cases hfind : (c :: s).find? (fun c => c.component == comp) with
        | none => simp [hpa]
        | some b =>
          have hb : b ∈ c :: s := List.mem_of_find?_eq_some hfind
          have hcb : c.priority ≤ b.priority := by
            rcases List.mem_cons.mp hb with rfl | hb2
            · exact le_refl _
            · exact List.rel_of_pairwise_cons hs hb2
          simp [hpa, le_trans hac hcb]
      | false =>
        rw [@List.find?_cons_of_neg Candidate
          (fun c => c.component == comp) a (c :: s) (by simp [hpa])]
        cases hfind : (c :: s).find? (fun c => c.component == comp) with
        | none => simp [hpa]
        | some b => simp [hpa]
    · rw [List.orderedInsert, if_neg hac]
      cases hpc : (c.component == comp) with
      | true =>
        rw [@List.find?_cons_of_pos Candidate
          (fun x => x.component == comp) c
          (List.orderedInsert (fun x y => x.priority ≤ y.priority) a s) hpc,
          @List.find?_cons_of_pos Candidate
          (fun x => x.component == comp) c s hpc]
        have hniff : ¬ (a.component = comp ∧ a.priority ≤ c.priority) :=
          fun h => hac h.2
        simp [hniff]
      | false =>
        rw [@List.find?_cons_of_neg Candidate
          (fun x => x.component == comp) c
          (List.orderedInsert (fun x y => x.priority ≤ y.priority) a s)
          (by simp [hpc]),
          @List.find?_cons_of_neg Candidate
          (fun x => x.component == comp) c s (by simp [hpc])]
        exact find?_orderedInsert comp a s hs.of_cons

/-- `get_default_candidate`'s search over the stable priority sort equals
the first-minimal specification. -/
theorem get_default_eq_spec (cands : List Candidate) (comp : Nat) :
    (cands.insertionSort (fun a b : Candidate => a.priority ≤ b.priority)).find?
      (fun c => c.component == comp) = default_candidate_spec cands comp := by
  induction cands with
  | nil => rfl
  | cons c rest ih =>
    have hs : List.Sorted (fun x y : Candidate => x.priority ≤ y.priority)
        (rest.insertionSort (fun a b : Candidate => a.priority ≤ b.priority)) := by
      haveI : IsTotal Candidate
          (fun x y : Candidate => x.priority ≤ y.priority) :=
        ⟨fun x y => le_total _ _⟩
      haveI : IsTrans Candidate
          (fun x y : Candidate => x.priority ≤ y.priority) :=
        ⟨fun x y z => le_trans⟩
      exact List.sorted_insertionSort _ rest
    rw [List.insertionSort, find?_orderedInsert comp c _ hs, ih]
    rfl

/-- C10: `get_default_candidate` returns the candidate with the minimum
priority value among the local candidates of the requested component, ties
broken by the sort's stability (the earliest such candidate in gathering
order, as `default_candidate_spec` computes), and `none` when no local
candidate has that component.  The function reads the candidate list
through a sorted copy (`sorted` copies; the embedding is a pure function
of the state), so the list itself is never modified. -/
theorem C10_get_default_candidate (conn : Conn) (component : Nat) :
    (get_default_candidate conn component =
      default_candidate_spec conn.local_candidates component) ∧
    (get_default_candidate conn component = none ↔
      ∀ c ∈ conn.local_candidates, c.component ≠ component) ∧
    (∀ c, get_default_candidate conn component = some c →
      c ∈ conn.local_candidates ∧ c.component = component ∧
        ∀ d ∈ conn.local_candidates, d.component = component →
          c.priority ≤ d.priority) := by
  have hsorted : List.Sorted (fun x y : Candidate => x.priority ≤ y.priority)
      (conn.local_candidates.insertionSort
        (fun a b : Candidate => a.priority ≤ b.priority)) := by
    haveI : IsTotal Candidate
        (fun x y : Candidate => x.priority ≤ y.priority) :=
      ⟨fun x y => le_total _ _⟩
    haveI : IsTrans Candidate
        (fun x y : Candidate => x.priority ≤ y.priority) :=
      ⟨fun x y z => le_trans⟩
    exact List.sorted_insertionSort _ conn.local_candidates
  refine ⟨get_default_eq_spec conn.local_candidates component, ?_, ?_⟩
  · unfold get_default_candidate
    rw [List.find?_eq_none]
    constructor
    · intro h c hc
      have := h c ((List.mem_insertionSort _).mpr hc)
      simpa using this
    · intro h c hc
      have := h c ((List.mem_insertionSort _).mp hc)
      simpa using this
  · intro c hfind
    unfold get_default_candidate at hfind
    have hmem : c ∈ conn.local_candidates :=
      (List.mem_insertionSort _).mp (List.mem_of_find?_eq_some hfind)
    have hcomp : c.component = component := by
      simpa using List.find?_some hfind
    refine ⟨hmem, hcomp, ?_⟩
    obtain ⟨l1, l2, hsplit, hl1⟩ := find?_split hfind
    intro d hd hdcomp
    have hd2 : d ∈ conn.local_candidates.insertionSort
        (fun a b : Candidate => a.priority ≤ b.priority) :=
      (List.mem_insertionSort _).mpr hd
    rw [hsplit] at hd2 hsorted
    rcases List.mem_append.mp hd2 with hd3 | hd3
    · exact absurd (by simpa using hl1 d hd3) (by simp [hdcomp])
    · rcases List.mem_cons.mp hd3 with rfl | hd4
      · exact le_refl _
      · exact List.rel_of_pairwise_cons (List.pairwise_append.mp hsorted).2.1
          hd4

/-- Local candidates for the default-candidate witness: component 1 has
priorities 5 and 3, component 2 has priority 7. -/
def c10conn : Conn :=
  { conn0 with local_candidates :=
      [{ foundation := "l1", component := 1, transport := "udp"
         priority := 5, host := "10.0.1.1", port := 7001, type := "host" },
       { foundation := "l2", component := 1, transport := "udp"
         priority := 3, host := "10.0.1.2", port := 7002, type := "host" },
       { foundation := "l3", component := 2, transport := "udp"
         priority := 7, host := "10.0.1.3", port := 7003, type := "host" }] }

/-- The minimum-priority component-1 candidate of `c10conn`. -/
def lowCand : Candidate :=
  { foundation := "l2", component := 1, transport := "udp"
    priority := 3, host := "10.0.1.2", port := 7002, type := "host" }

/-- C10, witness: on `c10conn`, component 1 yields the priority-3
candidate, which is a member, has the component, and has minimal
priority. -/
theorem C10_get_default_candidate_witness :
    get_default_candidate c10conn 1 = some lowCand ∧
      lowCand ∈ c10conn.local_candidates ∧ lowCand.component = 1 ∧
      (∀ d ∈ c10conn.local_candidates, d.component = 1 →
        lowCand.priority ≤ d.priority) :=
  ⟨by decide,
    ((C10_get_default_candidate c10conn 1).2.2 lowCand (by decide)).1,
    ((C10_get_default_candidate c10conn 1).2.2 lowCand (by decide)).2.1,
    ((C10_get_default_candidate c10conn 1).2.2 lowCand (by decide)).2.2⟩
